import Mathlib

/-
Verification of the packaging pipeline of `tools/tml-build.py`.

The script is a linear command-line flow: parse `package.yaml`, sanitize
the manifest (drop unrecognized fields, coerce numeric string-typed
fields), validate `id` / `version` / `code`, run the external CMake
builds for the two target architectures (modelled here by the two lists
of produced `*.so` file names), synthesize a `code` section when the
manifest has none, and finally write a zip archive containing the
serialized manifest, the per-architecture libraries, and the contents of
the auxiliary source directories.

The embedding below mirrors the script statement by statement.  YAML
values are modelled by the inductive `Yaml` (strings, integers,
booleans, null, sequences, mappings); Python dicts are ordered
association lists.  Warnings printed by the script are modelled by the
structured type `Warning` together with `renderWarning`, which produces
the exact message texts of the script.  Process termination is modelled
by `Result`: `fatal msg` for `fatal_error(msg)` (exit code 1), `exn`
for an uncaught Python exception (also a non-zero exit), and `ok` for
the successful path that writes the archive and exits 0.
-/

namespace TmlBuild

/-- A YAML value as produced by `yaml.safe_load`.  Floating point
scalars are not modelled; integer and boolean scalars cover the numeric
values relevant here (in Python, `bool` is a `numbers.Number`). -/
inductive Yaml where
  | s (v : String)
  | i (n : Int)
  | b (v : Bool)
  | null
  | list (xs : List Yaml)
  | map (kvs : List (String × Yaml))
  deriving Repr

mutual

/-- Decidable equality on `Yaml`, written by hand because `deriving`
does not yet handle the nested occurrences in `list` and `map`. -/
def yamlDecEq : (a b : Yaml) → Decidable (a = b)
  | .s x, .s y =>
    if h : x = y then isTrue (by rw [h])
    else isFalse (by intro hh; injection hh with h1; exact h h1)
  | .i x, .i y =>
    if h : x = y then isTrue (by rw [h])
    else isFalse (by intro hh; injection hh with h1; exact h h1)
  | .b x, .b y =>
    if h : x = y then isTrue (by rw [h])
    else isFalse (by intro hh; injection hh with h1; exact h h1)
  | .null, .null => isTrue rfl
  | .list xs, .list ys =>
    match yamlListDecEq xs ys with
    | isTrue h => isTrue (by rw [h])
    | isFalse h => isFalse (by intro hh; injection hh with h1; exact h h1)
  | .map xs, .map ys =>
    match yamlMapDecEq xs ys with
    | isTrue h => isTrue (by rw [h])
    | isFalse h => isFalse (by intro hh; injection hh with h1; exact h h1)
  | .s _, .i _ => isFalse (by intro h; injection h)
  | .s _, .b _ => isFalse (by intro h; injection h)
  | .s _, .null => isFalse (by intro h; injection h)
  | .s _, .list _ => isFalse (by intro h; injection h)
  | .s _, .map _ => isFalse (by intro h; injection h)
  | .i _, .s _ => isFalse (by intro h; injection h)
  | .i _, .b _ => isFalse (by intro h; injection h)
  | .i _, .null => isFalse (by intro h; injection h)
  | .i _, .list _ => isFalse (by intro h; injection h)
  | .i _, .map _ => isFalse (by intro h; injection h)
  | .b _, .s _ => isFalse (by intro h; injection h)
  | .b _, .i _ => isFalse (by intro h; injection h)
  | .b _, .null => isFalse (by intro h; injection h)
  | .b _, .list _ => isFalse (by intro h; injection h)
  | .b _, .map _ => isFalse (by intro h; injection h)
  | .null, .s _ => isFalse (by intro h; injection h)
  | .null, .i _ => isFalse (by intro h; injection h)
  | .null, .b _ => isFalse (by intro h; injection h)
  | .null, .list _ => isFalse (by intro h; injection h)
  | .null, .map _ => isFalse (by intro h; injection h)
  | .list _, .s _ => isFalse (by intro h; injection h)
  | .list _, .i _ => isFalse (by intro h; injection h)
  | .list _, .b _ => isFalse (by intro h; injection h)
  | .list _, .null => isFalse (by intro h; injection h)
  | .list _, .map _ => isFalse (by intro h; injection h)
  | .map _, .s _ => isFalse (by intro h; injection h)
  | .map _, .i _ => isFalse (by intro h; injection h)
  | .map _, .b _ => isFalse (by intro h; injection h)
  | .map _, .null => isFalse (by intro h; injection h)
  | .map _, .list _ => isFalse (by intro h; injection h)

def yamlListDecEq : (xs ys : List Yaml) → Decidable (xs = ys)
  | [], [] => isTrue rfl
  | [], _ :: _ => isFalse (by intro h; injection h)
  | _ :: _, [] => isFalse (by intro h; injection h)
  | x :: xs, y :: ys =>
    match yamlDecEq x y with
    | isFalse h1 => isFalse (by intro hh; injection hh with e1 e2; exact h1 e1)
    | isTrue h1 =>
      match yamlListDecEq xs ys with
      | isTrue h2 => isTrue (by rw [h1, h2])
      | isFalse h2 => isFalse (by intro hh; injection hh with e1 e2; exact h2 e2)

def yamlMapDecEq : (xs ys : List (String × Yaml)) → Decidable (xs = ys)
  | [], [] => isTrue rfl
  | [], _ :: _ => isFalse (by intro h; injection h)
  | _ :: _, [] => isFalse (by intro h; injection h)
  | (k1, v1) :: xs, (k2, v2) :: ys =>
    if hk : k1 = k2 then
      match yamlDecEq v1 v2 with
      | isFalse h1 => isFalse (by intro hh; injection hh with e1 e2; cases e1; exact h1 rfl)
      | isTrue h1 =>
        match yamlMapDecEq xs ys with
        | isTrue h2 => isTrue (by rw [hk, h1, h2])
        | isFalse h2 => isFalse (by intro hh; injection hh with e1 e2; exact h2 e2)
    else isFalse (by intro hh; injection hh with e1 e2; cases e1; exact hk rfl)

end

instance : DecidableEq Yaml := yamlDecEq

/-- A Python dict with string keys, as an insertion-ordered association
list (Python dicts preserve insertion order; keys are unique). -/
abbrev PyDict := List (String × Yaml)

/-- `d[k]` lookup: the first binding of `k`. -/
def getProp : PyDict → String → Option Yaml
  | [], _ => none
  | kv :: rest, k => if kv.1 = k then some kv.2 else getProp rest k

/-- `del d[k]`: removes the binding of `k` (order of the rest kept). -/
def delProp : PyDict → String → PyDict
  | [], _ => []
  | kv :: rest, k => if kv.1 = k then delProp rest k else kv :: delProp rest k

/-- `d[k] = v`: in-place update when `k` is bound, otherwise the new
binding is appended at the end (Python dict insertion order). -/
def setOrAppend : PyDict → String → Yaml → PyDict
  | [], k, v => [(k, v)]
  | kv :: rest, k, v =>
    if kv.1 = k then (k, v) :: rest else kv :: setOrAppend rest k v

/-- `isinstance(v, numbers.Number)`: Python `bool` is a number. -/
def isNumber : Yaml → Bool
  | .i _ => true
  | .b _ => true
  | _ => false

/-- `isinstance(v, str)`. -/
def isStr : Yaml → Bool
  | .s _ => true
  | _ => false

/-- Python `str(v)` for the scalars the script coerces (`str` is only
applied to values satisfying `isNumber`). -/
def pyStr : Yaml → String
  | .i n => toString n
  | .b true => "True"
  | .b false => "False"
  | .s v => v
  | _ => ""

/-- Python truthiness, as used by `if not loader or not path`. -/
def pyTruthy : Yaml → Bool
  | .s v => v != ""
  | .i n => n != 0
  | .b v => v
  | .null => false
  | .list xs => !xs.isEmpty
  | .map kvs => !kvs.isEmpty

/-- The warnings the script can print (via `color_print(color.WARNING, ...)`). -/
inductive Warning where
  | unrecognizedProperty (prop : String)
  | notAString (prop : String)
  | notCompiledArm (lib : String)
  | notCompiledX86 (lib : String)
  deriving DecidableEq, Repr

/-- The exact message text the script prints for each warning. -/
def renderWarning : Warning → String
  | .unrecognizedProperty p => "Property \"" ++ p ++ "\" is not recognized in package.yaml"
  | .notAString p => "Property \"" ++ p ++ "\" must be a string in package.yaml"
  | .notCompiledArm l => "Library \"" ++ l ++ "\" is not compiled for the ARM architecture"
  | .notCompiledX86 l => "Library \"" ++ l ++ "\" is not compiled for the X86 architecture"

/-- One step of the string-property pass of `verify_properties`: for
property `p`, a non-string value is coerced with `str` when numeric and
otherwise dropped with a warning. -/
def coerceStep (acc : PyDict × List Warning) (p : String) : PyDict × List Warning :=
  match getProp acc.1 p with
  | none => acc
  | some (.s _) => acc
  | some v =>
    if isNumber v then (setOrAppend acc.1 p (.s (pyStr v)), acc.2)
    else (delProp acc.1 p, acc.2 ++ [Warning.notAString p])

/-- `verify_properties(d, recognized_properties, string_properties)`:
first every property not in `recognized` is warned about and deleted (in
dict order), then each property of `stringProps` that is bound to a
non-string is coerced (numbers) or deleted with a warning.  Returns the
sanitized dict and the warnings in emission order. -/
def verify_properties (d : PyDict) (recognized stringProps : List String) :
    PyDict × List Warning :=
  let unknown := (d.map Prod.fst).filter (fun p => !recognized.contains p)
  let d1 := unknown.foldl delProp d
  let ws1 := unknown.map Warning.unrecognizedProperty
  let r := stringProps.foldl coerceStep (d1, [])
  (r.1, ws1 ++ r.2)

/-- Consume a maximal run of ASCII digits. -/
def dropDigits : List Char → List Char
  | [] => []
  | c :: rest => if c.isDigit then dropDigits rest else c :: rest

/-- `\d+`: consume one or more digits, returning the rest on success.
Python `\d` also accepts non-ASCII Unicode decimal digits; the model
restricts digits to ASCII, which covers all version strings at issue. -/
def digits1 : List Char → Option (List Char)
  | [] => none
  | c :: rest => if c.isDigit then some (dropDigits rest) else none

/-- The pattern `\d+(\.\d+(\.\d+)?)?` matched against the whole
character list (both ends anchored). -/
def versionCore (cs : List Char) : Bool :=
  match digits1 cs with
  | none => false
  | some r =>
    match r with
    | [] => true
    | '.' :: r2 =>
      match digits1 r2 with
      | none => false
      | some r3 =>
        match r3 with
        | [] => true
        | '.' :: r4 => digits1 r4 == some []
        | _ => false
    | _ => false

/-- The version pattern anchored at both ends of the string, exactly as
written in the spec (`\d+(\.\d+(\.\d+)?)?` with `^` and `$` as strict
anchors). -/
def anchoredVersionMatch (s : String) : Bool :=
  versionCore s.data

/-- `re.match("^\d+(\.\d+(\.\d+)?)?$", s)`: in Python, `$` (without
`re.MULTILINE`) matches at the end of the string and also immediately
before a single newline that ends the string, so `"1\n"` matches. -/
def pyVersionMatch (s : String) : Bool :=
  versionCore s.data ||
    (match s.data.getLast? with
     | some c => c == '\n' && versionCore s.data.dropLast
     | none => false)

/-! ### The archive and the filesystem -/

/-- An entry written into the output zip.  `manifest` records the
`writestr("package.yaml", yaml.dump(package_yaml))` call with the dict
that is serialized; `file` records `zip_file.write(src, arcname)` on a
regular file; `dirEntry` records `zip_file.write` called on a directory
(Python stores a bare directory entry and none of its contents). -/
inductive Entry where
  | manifest (arcname : String) (content : PyDict)
  | file (arcname : String) (src : String)
  | dirEntry (arcname : String)
  deriving DecidableEq, Repr

/-- A node of the source file tree: a regular file or a directory with
its ordered `os.listdir` children. -/
inductive Node where
  | file
  | dir (children : List (String × Node))
  deriving Repr

mutual

def nodeDecEq : (a b : Node) → Decidable (a = b)
  | .file, .file => isTrue rfl
  | .file, .dir _ => isFalse (by intro h; injection h)
  | .dir _, .file => isFalse (by intro h; injection h)
  | .dir xs, .dir ys =>
    match nodeListDecEq xs ys with
    | isTrue h => isTrue (by rw [h])
    | isFalse h => isFalse (by intro hh; injection hh with h1; exact h h1)

def nodeListDecEq : (xs ys : List (String × Node)) → Decidable (xs = ys)
  | [], [] => isTrue rfl
  | [], _ :: _ => isFalse (by intro h; injection h)
  | _ :: _, [] => isFalse (by intro h; injection h)
  | (k1, v1) :: xs, (k2, v2) :: ys =>
    if hk : k1 = k2 then
      match nodeDecEq v1 v2 with
      | isFalse h1 => isFalse (by intro hh; injection hh with e1 e2; cases e1; exact h1 rfl)
      | isTrue h1 =>
        match nodeListDecEq xs ys with
        | isTrue h2 => isTrue (by rw [hk, h1, h2])
        | isFalse h2 => isFalse (by intro hh; injection hh with e1 e2; exact h2 e2)
    else isFalse (by intro hh; injection hh with e1 e2; cases e1; exact hk rfl)

end

instance : DecidableEq Node := nodeDecEq

/-- `s.startswith(p)` on code points. -/
def strStartsWith (s p : String) : Bool :=
  p.data.isPrefixOf s.data

/-- `s.endswith(p)` on code points. -/
def strEndsWith (s p : String) : Bool :=
  p.data.isSuffixOf s.data

/-- The Python slice `s[n:]`. -/
def strDrop (s : String) (n : Nat) : String :=
  ⟨s.data.drop n⟩

/-- The Python slice `s[:-n]` (for `n ≥ 1`; clamps to `""`). -/
def strDropRight (s : String) (n : Nat) : String :=
  ⟨s.data.take (s.data.length - n)⟩

/-- `zip_path[:-1] if zip_path.endswith("/") else zip_path`. -/
def stripSlash (zp : String) : String :=
  if strEndsWith zp "/" then strDropRight zp 1 else zp

mutual

/-- The body of `pack_dir(zip_file, zip_path, dir_path)` for the node
found at `dir_path`.  A `file` node returns nothing, modelling the
`if not os.path.isdir(dir_path): return` guard.  The recursion test of
the script is `os.path.isdir(zip_path + "/" + f)`: it resolves the
archive-internal path against the process working directory, not
against `dir_path`; this environment-dependent test is modelled by the
oracle `cwdIsDir`.  In the `else` branch `zip_file.write` receives
`os.path.join(dir_path, f)`, which is a directory whenever the child is
one (then Python stores a bare directory entry). -/
def pack_dir (cwdIsDir : String → Bool) (zip_path dir_path : String) :
    Node → List Entry
  | .file => []
  | .dir children => pack_children cwdIsDir (stripSlash zip_path) dir_path children

def pack_children (cwdIsDir : String → Bool) (zp dp : String) :
    List (String × Node) → List Entry
  | [] => []
  | (f, child) :: rest =>
    (if cwdIsDir (zp ++ "/" ++ f) then
      pack_dir cwdIsDir (zp ++ "/" ++ f) (dp ++ "/" ++ f) child
    else
      match child with
      | .file => [Entry.file (zp ++ "/" ++ f) (dp ++ "/" ++ f)]
      | .dir _ => [Entry.dirEntry (zp ++ "/" ++ f)]) ++
    pack_children cwdIsDir zp dp rest

end

/-- A `pack_dir` call on a directory that may be absent from the source
tree: `os.path.isdir(dir_path)` fails for `none` and the call silently
returns. -/
def pack_dir_opt (cwdIsDir : String → Bool) (zip_path dir_path : String) :
    Option Node → List Entry
  | none => []
  | some n => pack_dir cwdIsDir zip_path dir_path n

/-! ### Code entries -/

def package_yaml_string_properties : List String := ["id", "name", "author", "version"]

def package_yaml_recognized_properties : List String :=
  package_yaml_string_properties ++ ["code", "dependencies"]

def code_string_properties : List String := ["loader", "type", "path", "name"]

/-- First-match alias resolution over a code entry:
`code[k1] if k1 in code else (code[k2] if k2 in code else False)`, with
Python `False` modelled by `none`. -/
def resolveAlias (d : PyDict) (k1 k2 : String) : Option Yaml :=
  match getProp d k1 with
  | some v => some v
  | none => getProp d k2

/-- Truthiness of a resolved alias; `none` is Python `False`. -/
def truthyOpt : Option Yaml → Bool
  | none => false
  | some v => pyTruthy v

/-- `loader == "native"` where `loader` is `False` or a YAML value:
only the string `"native"` compares equal. -/
def isNativeLoader : Option Yaml → Bool
  | some (.s t) => t == "native"
  | _ => false

def invalidCodeEntryMsg : String :=
  "Invalid code entry in package.yaml (no loader name or file path)"

/-- Outcome of the body of `for code in package_yaml["code"]` on one
entry: the sanitized entry plus its warnings and the value appended to
`package_yaml_native_libs` (if any), a `fatal_error`, or an uncaught
Python exception. -/
inductive EntryOut where
  | ok (sanitized : Yaml) (ws : List Warning) (nativeLib : Option Yaml)
  | fatalEntry (ws : List Warning)
  | exnEntry
  deriving DecidableEq, Repr

/-- One iteration of the code-entry loop.  A mapping entry is sanitized
by `verify_properties`, then the loader (`type`, else `loader`) and the
path (`name`, else `path`) are resolved; if either is not truthy the
script calls `fatal_error`.  A non-mapping entry makes the Python code
misbehave: an empty sequence and the empty string sail through both
loops of `verify_properties` without effect and reach the same
`fatal_error`; every other non-mapping value raises an uncaught
exception (`del` on a non-dict, iteration over a number, or indexing a
sequence with a string key), modelled as `exnEntry`. -/
def processCodeEntry : Yaml → EntryOut
  | .map kvs =>
    let r := verify_properties kvs code_string_properties code_string_properties
    let loader := resolveAlias r.1 "type" "loader"
    let path := resolveAlias r.1 "name" "path"
    if !truthyOpt loader || !truthyOpt path then .fatalEntry r.2
    else .ok (.map r.1) r.2 (if isNativeLoader loader then path else none)
  | .list [] => .fatalEntry []
  | .s v => if v == "" then .fatalEntry [] else .exnEntry
  | _ => .exnEntry

/-- Outcome of the whole code-entry loop: the sanitized entries (the
list is mutated in place, so it also ends up in the manifest), the
warnings in emission order, and `package_yaml_native_libs`. -/
inductive CodeOut where
  | ok (entries : List Yaml) (ws : List Warning) (natLibs : List Yaml)
  | fatalCode (ws : List Warning)
  | exnCode (ws : List Warning)
  deriving DecidableEq, Repr

def processCodeList : List Yaml → CodeOut
  | [] => .ok [] [] []
  | e :: rest =>
    match processCodeEntry e with
    | .fatalEntry ws => .fatalCode ws
    | .exnEntry => .exnCode []
    | .ok e1 ws nl =>
      match processCodeList rest with
      | .ok es ws2 nls =>
        .ok (e1 :: es) (ws ++ ws2) (match nl with | some p => p :: nls | none => nls)
      | .fatalCode ws2 => .fatalCode (ws ++ ws2)
      | .exnCode ws2 => .exnCode (ws ++ ws2)

/-! ### Synthesis of a missing code section -/

/-- `x86_libs if len(arm_libs) == 0 else arm_libs`. -/
def selectedLibs (armLibs x86Libs : List String) : List String :=
  if armLibs.length = 0 then x86Libs else armLibs

/-- `shortname = lib[3:][:-3] if lib.startswith("lib") and lib.endswith(".so") else lib`. -/
def shortname (lib : String) : String :=
  if strStartsWith lib "lib" && strEndsWith lib ".so" then
    strDropRight (strDrop lib 3) 3
  else lib

/-- The dict literal appended for one artifact. -/
def synthEntry (lib : String) : Yaml :=
  .map [("name", .s (shortname lib)), ("type", .s "native")]

/-- The warnings printed for one artifact of the synthesis loop. -/
def synthWarnings1 (armLibs x86Libs : List String) (lib : String) : List Warning :=
  (if armLibs.contains lib then [] else [Warning.notCompiledArm lib]) ++
  (if x86Libs.contains lib then [] else [Warning.notCompiledX86 lib])

/-- The `if "code" not in package_yaml` block: iterate over the
selected library list, warn about artifacts missing from either
architecture, and build the synthesized code list. -/
def synthCode (armLibs x86Libs : List String) : List Yaml × List Warning :=
  let src := selectedLibs armLibs x86Libs
  (src.map synthEntry, src.flatMap (synthWarnings1 armLibs x86Libs))

/-! ### The pipeline -/

/-- How the process ends: `fatal msg` for `fatal_error(msg)` (prints
`msg`, exit code 1), `exn` for an uncaught exception (also a non-zero
exit), and `ok archivePath entries finalManifest` for the successful
run that writes the archive and prints `- Success!`. -/
inductive Result where
  | fatal (msg : String)
  | exn
  | ok (archivePath : String) (entries : List Entry) (finalManifest : PyDict)
  deriving DecidableEq, Repr

def Result.isOk : Result → Bool
  | .ok _ _ _ => true
  | _ => false

def Result.entries : Result → List Entry
  | .ok _ es _ => es
  | _ => []

def Result.manifestOut : Result → Option PyDict
  | .ok _ _ mf => some mf
  | _ => none

/-- The `code` section of the manifest written into the archive, when
the run succeeded. -/
def Result.codeOut : Result → Option Yaml
  | .ok _ _ mf => getProp mf "code"
  | _ => none

/-- The inputs of the run that the script reads from its environment:
the command-line paths, whether `-o` names an existing directory, the
`os.path.isdir` oracle for paths resolved against the process working
directory (used by `pack_dir`), and the three auxiliary source
directories (`none` when absent). -/
structure Config where
  source_dir : String
  build_dir : String
  output_pkg_path : String
  outputIsDir : Bool
  cwdIsDir : String → Bool
  nativeDir : Option Node
  assetsDir : Option Node
  resourcePackDir : Option Node

/-- Warnings printed so far, paired with how the run ended. -/
structure RunOut where
  warnings : List Warning
  result : Result
  deriving DecidableEq, Repr

/-- The archive entries written on the success path, in writing order:
`package.yaml` first, then the per-architecture libraries from the two
build directories (`<build_dir>/arm`, `<build_dir>/x86`) under
`native/<abi>/`, then the three auxiliary source directories. -/
def archiveEntries (cfg : Config) (m2 : PyDict) (armLibs x86Libs : List String) :
    List Entry :=
  Entry.manifest "package.yaml" m2 ::
  (armLibs.map (fun l =>
      Entry.file ("native/armeabi-v7a/" ++ l) (cfg.build_dir ++ "/arm" ++ "/" ++ l)) ++
   x86Libs.map (fun l =>
      Entry.file ("native/x86/" ++ l) (cfg.build_dir ++ "/x86" ++ "/" ++ l)) ++
   pack_dir_opt cfg.cwdIsDir "native/" (cfg.source_dir ++ "/native") cfg.nativeDir ++
   pack_dir_opt cfg.cwdIsDir "assets/" (cfg.source_dir ++ "/assets") cfg.assetsDir ++
   pack_dir_opt cfg.cwdIsDir "resource_pack/" (cfg.source_dir ++ "/resource_pack")
     cfg.resourcePackDir)

/-- The packaging block (script lines 202-215): derive the archive file
name when the output path is a directory (`<id>.tbp` inside it), then
write the entries of `archiveEntries`.  The `id` lookup is total in the
script because sanitization guarantees a string; a non-string would
raise on `+`, modelled as `exn`. -/
def packageStep (cfg : Config) (m2 : PyDict) (armLibs x86Libs : List String)
    (ws : List Warning) : RunOut :=
  if cfg.outputIsDir then
    match getProp m2 "id" with
    | some (.s i) =>
      ⟨ws, .ok (cfg.output_pkg_path ++ "/" ++ i ++ ".tbp")
        (archiveEntries cfg m2 armLibs x86Libs) m2⟩
    | _ => ⟨ws, .exn⟩
  else ⟨ws, .ok cfg.output_pkg_path (archiveEntries cfg m2 armLibs x86Libs) m2⟩

/-- The manifest-processing part of the script, from
`verify_properties(package_yaml, ...)` to the end, already split on the
sanitized manifest (`m1`) and the sanitization warnings (`ws0`).  The
two CMake invocations are external; their observable outputs are the
two lists of produced `*.so` names, taken as parameters (the script
validates the declared `code` section before the builds and synthesizes
a missing one after them, with the manifest untouched in between). -/
def runAfterSanitize (cfg : Config) (m1 : PyDict) (ws0 : List Warning)
    (armLibs x86Libs : List String) : RunOut :=
  match getProp m1 "id" with
  | none => ⟨ws0, .fatal "No package id specified in package.yaml"⟩
  | some _ =>
    match getProp m1 "version" with
    | none => ⟨ws0, .fatal "Invalid package version in package.yaml"⟩
    | some (.s ver) =>
      if pyVersionMatch ver then
        match getProp m1 "code" with
        | none =>
          packageStep cfg
            (setOrAppend m1 "code" (.list (synthCode armLibs x86Libs).1))
            armLibs x86Libs (ws0 ++ (synthCode armLibs x86Libs).2)
        | some (.list es) =>
          match processCodeList es with
          | .fatalCode ws => ⟨ws0 ++ ws, .fatal invalidCodeEntryMsg⟩
          | .exnCode ws => ⟨ws0 ++ ws, .exn⟩
          | .ok es1 ws _ =>
            packageStep cfg (setOrAppend m1 "code" (.list es1)) armLibs x86Libs (ws0 ++ ws)
        | some _ => ⟨ws0, .fatal "Invalid code property in package.yaml (not a list)"⟩
      else ⟨ws0, .fatal "Invalid package version in package.yaml"⟩
    | some _ => ⟨ws0, .exn⟩

/-- The whole manifest-to-archive run of the script on a parsed
`package.yaml` mapping `m0` and the library lists produced by the two
builds. -/
def run (cfg : Config) (m0 : PyDict) (armLibs x86Libs : List String) : RunOut :=
  runAfterSanitize cfg
    (verify_properties m0 package_yaml_recognized_properties
      package_yaml_string_properties).1
    (verify_properties m0 package_yaml_recognized_properties
      package_yaml_string_properties).2
    armLibs x86Libs

/-! ### Dictionary lemmas -/

theorem getProp_delProp_self (d : PyDict) (k : String) :
    getProp (delProp d k) k = none := by
  induction d with
  | nil => rfl
  | cons kv rest ih =>
    by_cases h : kv.1 = k
    · simpa [delProp, h] using ih
    · simpa [delProp, getProp, h] using ih

theorem getProp_delProp_ne (d : PyDict) {k k2 : String} (h : k ≠ k2) :
    getProp (delProp d k2) k = getProp d k := by
  induction d with
  | nil => rfl
  | cons kv rest ih =>
    by_cases h1 : kv.1 = k2
    · have h2 : ¬ kv.1 = k := by rw [h1]; exact fun hh => h hh.symm
      simp only [delProp, getProp, if_pos h1, if_neg h2]
      exact ih
    · by_cases h2 : kv.1 = k
      · simp only [delProp, getProp, if_neg h1, if_pos h2]
      · simp only [delProp, getProp, if_neg h1, if_neg h2]
        exact ih

theorem getProp_setOrAppend_self (d : PyDict) (k : String) (v : Yaml) :
    getProp (setOrAppend d k v) k = some v := by
  induction d with
  | nil => simp [setOrAppend, getProp]
  | cons kv rest ih =>
    by_cases h : kv.1 = k
    · simp [setOrAppend, getProp, h]
    · simpa [setOrAppend, getProp, h] using ih

theorem getProp_setOrAppend_ne (d : PyDict) {k k2 : String} (v : Yaml) (h : k ≠ k2) :
    getProp (setOrAppend d k2 v) k = getProp d k := by
  have h2 : ¬ (k2 = k) := fun hh => h hh.symm
  induction d with
  | nil => simp only [setOrAppend, getProp, if_neg h2]
  | cons kv rest ih =>
    by_cases h1 : kv.1 = k2
    · simp only [setOrAppend, getProp, if_pos h1, if_neg h2]
      rw [← h1] at h2
      rw [if_neg h2]
    · by_cases h3 : kv.1 = k
      · simp only [setOrAppend, getProp, if_neg h1, if_pos h3]
      · simp only [setOrAppend, getProp, if_neg h1, if_neg h3]
        exact ih

theorem getProp_some_mem_keys {d : PyDict} {k : String} {v : Yaml}
    (h : getProp d k = some v) : k ∈ d.map Prod.fst := by
  induction d with
  | nil => simp [getProp] at h
  | cons kv rest ih =>
    by_cases h1 : kv.1 = k
    · simp [h1]
    · refine List.mem_cons_of_mem _ (ih ?_)
      simpa [getProp, h1] using h

/-! ### Lemmas about the deletion pass of `verify_properties` -/

theorem foldl_delProp_none {k : String} :
    ∀ (l : List String) (d : PyDict), getProp d k = none →
      getProp (l.foldl delProp d) k = none := by
  intro l
  induction l with
  | nil => exact fun d h => h
  | cons q rest ih =>
    intro d h
    refine ih _ ?_
    by_cases hq : k = q
    · subst hq; exact getProp_delProp_self d k
    · rw [getProp_delProp_ne d hq]; exact h

theorem foldl_delProp_mem {k : String} :
    ∀ (l : List String), k ∈ l → ∀ (d : PyDict),
      getProp (l.foldl delProp d) k = none := by
  intro l
  induction l with
  | nil => intro h; cases h
  | cons q rest ih =>
    intro h d
    by_cases hq : k ∈ rest
    · exact ih hq _
    · have hk : k = q := by
        rcases List.mem_cons.mp h with h1 | h1
        · exact h1
        · exact absurd h1 hq
      subst hk
      exact foldl_delProp_none rest (delProp d k) (getProp_delProp_self d k)

theorem foldl_delProp_not_mem {k : String} :
    ∀ (l : List String), k ∉ l → ∀ (d : PyDict),
      getProp (l.foldl delProp d) k = getProp d k := by
  intro l
  induction l with
  | nil => exact fun _ _ => rfl
  | cons q rest ih =>
    intro h d
    have hq : k ≠ q := fun hh => h (hh ▸ List.mem_cons_self q rest)
    have hr : k ∉ rest := fun hh => h (List.mem_cons_of_mem _ hh)
    rw [List.foldl_cons, ih hr, getProp_delProp_ne d hq]

/-! ### Lemmas about the coercion pass of `verify_properties` -/

theorem coerceStep_getProp_ne (acc : PyDict × List Warning) {p k : String}
    (h : k ≠ p) : getProp (coerceStep acc p).1 k = getProp acc.1 k := by
  unfold coerceStep
  rcases hv : getProp acc.1 p with _ | v
  · rfl
  · cases v <;> simp [isNumber, getProp_setOrAppend_ne _ _ h, getProp_delProp_ne _ h]

theorem coerceStep_getProp_none (acc : PyDict × List Warning) {k : String}
    (h : getProp acc.1 k = none) (p : String) :
    getProp (coerceStep acc p).1 k = none := by
  by_cases hp : k = p
  · subst hp
    unfold coerceStep
    rw [h]
    exact h
  · rw [coerceStep_getProp_ne acc hp]; exact h

theorem coerceStep_getProp_str (acc : PyDict × List Warning) {k : String} {t : String}
    (h : getProp acc.1 k = some (.s t)) (p : String) :
    getProp (coerceStep acc p).1 k = some (.s t) := by
  by_cases hp : k = p
  · subst hp
    unfold coerceStep
    rw [h]
    exact h
  · rw [coerceStep_getProp_ne acc hp]; exact h

theorem coerceStep_warnings (acc : PyDict × List Warning) (p : String) :
    (coerceStep acc p).2 = acc.2 ∨
      (coerceStep acc p).2 = acc.2 ++ [Warning.notAString p] := by
  unfold coerceStep
  rcases hv : getProp acc.1 p with _ | v
  · exact Or.inl rfl
  · cases v <;> simp [isNumber]

theorem foldl_coerceStep_none {k : String} :
    ∀ (ps : List String) (acc : PyDict × List Warning),
      getProp acc.1 k = none → getProp (ps.foldl coerceStep acc).1 k = none := by
  intro ps
  induction ps with
  | nil => exact fun _ h => h
  | cons q rest ih => exact fun acc h => ih _ (coerceStep_getProp_none acc h q)

theorem foldl_coerceStep_str {k : String} {t : String} :
    ∀ (ps : List String) (acc : PyDict × List Warning),
      getProp acc.1 k = some (.s t) →
      getProp (ps.foldl coerceStep acc).1 k = some (.s t) := by
  intro ps
  induction ps with
  | nil => exact fun _ h => h
  | cons q rest ih => exact fun acc h => ih _ (coerceStep_getProp_str acc h q)

theorem foldl_coerceStep_not_mem {k : String} :
    ∀ (ps : List String), k ∉ ps → ∀ (acc : PyDict × List Warning),
      getProp (ps.foldl coerceStep acc).1 k = getProp acc.1 k := by
  intro ps
  induction ps with
  | nil => exact fun _ _ => rfl
  | cons q rest ih =>
    intro h acc
    have hq : k ≠ q := fun hh => h (hh ▸ List.mem_cons_self q rest)
    have hr : k ∉ rest := fun hh => h (List.mem_cons_of_mem _ hh)
    rw [List.foldl_cons, ih hr, coerceStep_getProp_ne acc hq]

theorem foldl_coerceStep_warnings_mono {w : Warning} :
    ∀ (ps : List String) (acc : PyDict × List Warning), w ∈ acc.2 →
      w ∈ (ps.foldl coerceStep acc).2 := by
  intro ps
  induction ps with
  | nil => exact fun _ h => h
  | cons q rest ih =>
    intro acc h
    refine ih _ ?_
    rcases coerceStep_warnings acc q with h1 | h1 <;> rw [h1]
    · exact h
    · exact List.mem_append_left _ h

theorem foldl_coerceStep_coerce {p : String} {v : Yaml}
    (hs : isStr v = false) (hn : isNumber v = true) :
    ∀ (ps : List String), p ∈ ps → ∀ (acc : PyDict × List Warning),
      getProp acc.1 p = some v →
      getProp (ps.foldl coerceStep acc).1 p = some (.s (pyStr v)) := by
  intro ps
  induction ps with
  | nil => intro h; cases h
  | cons q rest ih =>
    intro hp acc hv
    by_cases hq : p = q
    · subst hq
      have hstep : getProp (coerceStep acc p).1 p = some (.s (pyStr v)) := by
        unfold coerceStep
        rw [hv]
        cases v <;> simp_all [isStr, isNumber, getProp_setOrAppend_self]
      exact foldl_coerceStep_str rest _ hstep
    · rcases List.mem_cons.mp hp with h1 | h1
      · exact absurd h1 hq
      · refine ih h1 _ ?_
        rw [coerceStep_getProp_ne acc hq]; exact hv

theorem foldl_coerceStep_delete {p : String} {v : Yaml}
    (hs : isStr v = false) (hn : isNumber v = false) :
    ∀ (ps : List String), p ∈ ps → ∀ (acc : PyDict × List Warning),
      getProp acc.1 p = some v →
      getProp (ps.foldl coerceStep acc).1 p = none ∧
        Warning.notAString p ∈ (ps.foldl coerceStep acc).2 := by
  intro ps
  induction ps with
  | nil => intro h; cases h
  | cons q rest ih =>
    intro hp acc hv
    by_cases hq : p = q
    · subst hq
      have hstep : getProp (coerceStep acc p).1 p = none ∧
          Warning.notAString p ∈ (coerceStep acc p).2 := by
        unfold coerceStep
        rw [hv]
        cases v <;> simp_all [isStr, isNumber, getProp_delProp_self]
      exact ⟨foldl_coerceStep_none rest _ hstep.1,
             foldl_coerceStep_warnings_mono rest _ hstep.2⟩
    · rcases List.mem_cons.mp hp with h1 | h1
      · exact absurd h1 hq
      · refine ih h1 _ ?_
        rw [coerceStep_getProp_ne acc hq]; exact hv

theorem foldl_coerceStep_warnings_shape {w : Warning} :
    ∀ (ps : List String) (acc : PyDict × List Warning),
      w ∈ (ps.foldl coerceStep acc).2 →
      w ∈ acc.2 ∨ ∃ p, w = Warning.notAString p := by
  intro ps
  induction ps with
  | nil => exact fun _ h => Or.inl h
  | cons q rest ih =>
    intro acc h
    rcases ih _ h with h1 | h1
    · rcases coerceStep_warnings acc q with h2 | h2 <;> rw [h2] at h1
      · exact Or.inl h1
      · rcases List.mem_append.mp h1 with h3 | h3
        · exact Or.inl h3
        · exact Or.inr ⟨q, List.mem_singleton.mp h3⟩
    · exact Or.inr h1

/-! ### Lemmas about `verify_properties` -/

theorem verify_getProp_unrecognized {d : PyDict} {k : String} {v : Yaml}
    (recognized stringProps : List String)
    (hk : recognized.contains k = false)
    (hv : getProp d k = some v) :
    getProp (verify_properties d recognized stringProps).1 k = none ∧
      Warning.unrecognizedProperty k ∈ (verify_properties d recognized stringProps).2 := by
  have hmem : k ∈ (d.map Prod.fst).filter (fun p => !recognized.contains p) := by
    refine List.mem_filter.mpr ⟨getProp_some_mem_keys hv, ?_⟩
    rw [hk]; rfl
  constructor
  · show getProp (stringProps.foldl coerceStep
      (((d.map Prod.fst).filter (fun p => !recognized.contains p)).foldl delProp d, [])).1
        k = none
    exact foldl_coerceStep_none _ _ (foldl_delProp_mem _ hmem d)
  · show Warning.unrecognizedProperty k ∈
      ((d.map Prod.fst).filter (fun p => !recognized.contains p)).map
        Warning.unrecognizedProperty ++
      (stringProps.foldl coerceStep
        (((d.map Prod.fst).filter (fun p => !recognized.contains p)).foldl delProp d, [])).2
    exact List.mem_append_left _ (List.mem_map_of_mem _ hmem)

theorem not_mem_unknown_of_contains {d : PyDict} {k : String}
    {recognized : List String} (hk : recognized.contains k = true) :
    k ∉ (d.map Prod.fst).filter (fun p => !recognized.contains p) := by
  intro hmem
  have := (List.mem_filter.mp hmem).2
  rw [hk] at this
  cases this

theorem verify_coerces {d : PyDict} {k : String} {v : Yaml}
    (recognized stringProps : List String)
    (hk : recognized.contains k = true) (hks : k ∈ stringProps)
    (hv : getProp d k = some v) (hs : isStr v = false) (hn : isNumber v = true) :
    getProp (verify_properties d recognized stringProps).1 k = some (.s (pyStr v)) := by
  have hd1 : getProp
      (((d.map Prod.fst).filter (fun p => !recognized.contains p)).foldl delProp d) k =
      some v := by
    rw [foldl_delProp_not_mem _ (not_mem_unknown_of_contains hk) d]
    exact hv
  show getProp (stringProps.foldl coerceStep
    (((d.map Prod.fst).filter (fun p => !recognized.contains p)).foldl delProp d, [])).1
      k = some (.s (pyStr v))
  exact foldl_coerceStep_coerce hs hn stringProps hks _ hd1

theorem verify_deletes_nonscalar {d : PyDict} {k : String} {v : Yaml}
    (recognized stringProps : List String)
    (hk : recognized.contains k = true) (hks : k ∈ stringProps)
    (hv : getProp d k = some v) (hs : isStr v = false) (hn : isNumber v = false) :
    getProp (verify_properties d recognized stringProps).1 k = none ∧
      Warning.notAString k ∈ (verify_properties d recognized stringProps).2 := by
  have hd1 : getProp
      (((d.map Prod.fst).filter (fun p => !recognized.contains p)).foldl delProp d) k =
      some v := by
    rw [foldl_delProp_not_mem _ (not_mem_unknown_of_contains hk) d]
    exact hv
  have hmain := foldl_coerceStep_delete hs hn stringProps hks
    (((d.map Prod.fst).filter (fun p => !recognized.contains p)).foldl delProp d, []) hd1
  exact ⟨hmain.1, List.mem_append_right _ hmain.2⟩

theorem verify_none {d : PyDict} {k : String}
    (recognized stringProps : List String) (h : getProp d k = none) :
    getProp (verify_properties d recognized stringProps).1 k = none := by
  show getProp (stringProps.foldl coerceStep
    (((d.map Prod.fst).filter (fun p => !recognized.contains p)).foldl delProp d, [])).1
      k = none
  exact foldl_coerceStep_none _ _ (foldl_delProp_none _ d h)

theorem verify_warnings_shape {d : PyDict} (recognized stringProps : List String)
    {w : Warning} (h : w ∈ (verify_properties d recognized stringProps).2) :
    (∃ p, w = Warning.unrecognizedProperty p) ∨ ∃ p, w = Warning.notAString p := by
  rcases List.mem_append.mp h with h1 | h1
  · rcases List.mem_map.mp h1 with ⟨p, _, hp⟩
    exact Or.inl ⟨p, hp.symm⟩
  · rcases foldl_coerceStep_warnings_shape _ _ h1 with h2 | h2
    · cases h2
    · exact Or.inr h2

/-! ### Lemmas about the code-entry loop -/

theorem processCodeList_ok_entry :
    ∀ {es : List Yaml} {es1 : List Yaml} {ws : List Warning} {nls : List Yaml},
      processCodeList es = .ok es1 ws nls → ∀ {e : Yaml}, e ∈ es →
      ∃ a b c, processCodeEntry e = .ok a b c := by
  intro es
  induction es with
  | nil => intro _ _ _ _ _ he; cases he
  | cons e0 rest ih =>
    intro es1 ws nls h e he
    simp only [processCodeList] at h
    cases he with
    | head =>
      cases h0 : processCodeEntry e0 with
      | ok a b c => exact ⟨a, b, c, rfl⟩
      | fatalEntry w => rw [h0] at h; cases h
      | exnEntry => rw [h0] at h; cases h
    | tail _ he =>
      cases h0 : processCodeEntry e0 with
      | ok a b c =>
        rw [h0] at h
        cases h1 : processCodeList rest with
        | ok x y z => exact ih h1 he
        | fatalCode w => rw [h1] at h; cases h
        | exnCode w => rw [h1] at h; cases h
      | fatalEntry w => rw [h0] at h; cases h
      | exnEntry => rw [h0] at h; cases h

theorem processCodeEntry_fatal_of_unresolved {kvs : List (String × Yaml)}
    (h : truthyOpt (resolveAlias
          (verify_properties kvs code_string_properties code_string_properties).1
          "type" "loader") = false ∨
        truthyOpt (resolveAlias
          (verify_properties kvs code_string_properties code_string_properties).1
          "name" "path") = false) :
    processCodeEntry (.map kvs) = .fatalEntry
      (verify_properties kvs code_string_properties code_string_properties).2 := by
  simp only [processCodeEntry]
  rcases h with h | h <;> simp [h]

/-! ### Lemmas about `packageStep`, `runAfterSanitize` and `run` -/

theorem packageStep_warnings (cfg : Config) (m2 : PyDict)
    (armLibs x86Libs : List String) (ws : List Warning) :
    (packageStep cfg m2 armLibs x86Libs ws).warnings = ws := by
  unfold packageStep
  split
  · split <;> rfl
  · rfl

theorem packageStep_ok_inv {cfg : Config} {m2 : PyDict}
    {armLibs x86Libs : List String} {ws : List Warning}
    {p : String} {es : List Entry} {mf : PyDict}
    (h : (packageStep cfg m2 armLibs x86Libs ws).result = .ok p es mf) : mf = m2 := by
  unfold packageStep at h
  split at h
  · split at h
    · cases h; rfl
    · cases h
  · cases h; rfl

theorem packageStep_result_ok {cfg : Config} {m2 : PyDict}
    {armLibs x86Libs : List String} {ws : List Warning} {i : String}
    (hid : getProp m2 "id" = some (.s i)) :
    (packageStep cfg m2 armLibs x86Libs ws).result.isOk = true := by
  unfold packageStep
  split
  · rw [hid]; rfl
  · rfl

theorem packageStep_manifestOut {cfg : Config} {m2 : PyDict}
    {armLibs x86Libs : List String} {ws : List Warning} {i : String}
    (hid : getProp m2 "id" = some (.s i)) :
    (packageStep cfg m2 armLibs x86Libs ws).result.manifestOut = some m2 := by
  unfold packageStep
  split
  · rw [hid]; rfl
  · rfl

theorem runAfterSanitize_warnings (cfg : Config) (m1 : PyDict) (ws0 : List Warning)
    (armLibs x86Libs : List String) :
    ∃ t, (runAfterSanitize cfg m1 ws0 armLibs x86Libs).warnings = ws0 ++ t := by
  unfold runAfterSanitize
  split
  · exact ⟨[], by simp⟩
  · split
    · exact ⟨[], by simp⟩
    · split
      · split
        · exact ⟨(synthCode armLibs x86Libs).2, by rw [packageStep_warnings]⟩
        · split
          · exact ⟨_, rfl⟩
          · exact ⟨_, rfl⟩
          · exact ⟨_, by rw [packageStep_warnings]⟩
        · exact ⟨[], by simp⟩
      · exact ⟨[], by simp⟩
    · exact ⟨[], by simp⟩

theorem runAfterSanitize_nocode (cfg : Config) (m1 : PyDict) (ws0 : List Warning)
    (armLibs x86Libs : List String) {y : Yaml} {ver : String}
    (hid : getProp m1 "id" = some y)
    (hver : getProp m1 "version" = some (.s ver))
    (hm : pyVersionMatch ver = true)
    (hnc : getProp m1 "code" = none) :
    runAfterSanitize cfg m1 ws0 armLibs x86Libs =
      packageStep cfg (setOrAppend m1 "code" (.list (synthCode armLibs x86Libs).1))
        armLibs x86Libs (ws0 ++ (synthCode armLibs x86Libs).2) := by
  unfold runAfterSanitize
  rw [hid, hver, hnc]
  simp only [hm, if_true]

theorem runAfterSanitize_ok_inv {cfg : Config} {m1 : PyDict} {ws0 : List Warning}
    {armLibs x86Libs : List String} {p : String} {es : List Entry} {mf : PyDict}
    (h : (runAfterSanitize cfg m1 ws0 armLibs x86Libs).result = .ok p es mf) :
    ∃ c, mf = setOrAppend m1 "code" c := by
  unfold runAfterSanitize at h
  split at h
  · cases h
  · split at h
    · cases h
    · split at h
      · split at h
        · exact ⟨_, packageStep_ok_inv h⟩
        · split at h
          · cases h
          · cases h
          · exact ⟨_, packageStep_ok_inv h⟩
        · cases h
      · cases h
    · cases h

theorem run_eq (cfg : Config) (m0 : PyDict) (armLibs x86Libs : List String) :
    run cfg m0 armLibs x86Libs =
      runAfterSanitize cfg
        (verify_properties m0 package_yaml_recognized_properties
          package_yaml_string_properties).1
        (verify_properties m0 package_yaml_recognized_properties
          package_yaml_string_properties).2
        armLibs x86Libs := rfl

theorem packageStep_codeOut {cfg : Config} {m2 : PyDict}
    {armLibs x86Libs : List String} {ws : List Warning} {i : String}
    (hid : getProp m2 "id" = some (.s i)) :
    (packageStep cfg m2 armLibs x86Libs ws).result.codeOut = getProp m2 "code" := by
  unfold packageStep
  split
  · rw [hid]; rfl
  · rfl

theorem runAfterSanitize_id_missing {cfg : Config} {m1 : PyDict} {ws0 : List Warning}
    {armLibs x86Libs : List String} (h : getProp m1 "id" = none) :
    runAfterSanitize cfg m1 ws0 armLibs x86Libs =
      ⟨ws0, .fatal "No package id specified in package.yaml"⟩ := by
  unfold runAfterSanitize
  rw [h]

theorem runAfterSanitize_version_missing (cfg : Config) (m1 : PyDict)
    (ws0 : List Warning) (armLibs x86Libs : List String)
    (h : getProp m1 "version" = none) :
    (runAfterSanitize cfg m1 ws0 armLibs x86Libs).result.isOk = false ∧
    (∀ y, getProp m1 "id" = some y →
      (runAfterSanitize cfg m1 ws0 armLibs x86Libs).result =
        .fatal "Invalid package version in package.yaml") := by
  constructor
  · unfold runAfterSanitize
    rw [h]
    split
    · rfl
    · rfl
  · intro y hy
    unfold runAfterSanitize
    rw [h, hy]

theorem runAfterSanitize_isOk_false_of_bad_version {cfg : Config} {m1 : PyDict}
    {ws0 : List Warning} {armLibs x86Libs : List String}
    (h : getProp m1 "version" = none ∨
      ∃ v, getProp m1 "version" = some (.s v) ∧ pyVersionMatch v = false) :
    (runAfterSanitize cfg m1 ws0 armLibs x86Libs).result.isOk = false := by
  unfold runAfterSanitize
  split
  · rfl
  · split
    · rfl
    · rename_i ver hver
      rcases h with h | ⟨v, hv, hm⟩
      · rw [h] at hver; cases hver
      · rw [hv] at hver
        injection hver with h1
        injection h1 with h2
        subst h2
        simp only [hm, Bool.false_eq_true, if_false]
        rfl
    · rfl

theorem runAfterSanitize_isOk_false_of_bad_entry {cfg : Config} {m1 : PyDict}
    {ws0 : List Warning} {armLibs x86Libs : List String} {es : List Yaml}
    (hcode : getProp m1 "code" = some (.list es))
    {e : Yaml} (he : e ∈ es) {w : List Warning}
    (hf : processCodeEntry e = .fatalEntry w) :
    (runAfterSanitize cfg m1 ws0 armLibs x86Libs).result.isOk = false := by
  unfold runAfterSanitize
  rw [hcode]
  split
  · rfl
  · split
    · rfl
    · split
      · split
        · rename_i heq
          cases heq
        · rename_i es2 heq
          injection heq with h1
          injection h1 with h2
          subst h2
          split
          · rfl
          · rfl
          · rename_i es1 ws2 nl hok
            rcases processCodeList_ok_entry hok he with ⟨a1, b1, c1, hoke⟩
            rw [hf] at hoke
            cases hoke
        · rfl
      · rfl
    · rfl

/-! ### Lemmas about the synthesized code section -/

theorem contains_false_of_not_mem {l : List String} {a : String} (h : a ∉ l) :
    l.contains a = false := by
  cases hc : l.contains a
  · rfl
  · exact absurd (List.mem_of_elem_eq_true hc) h

theorem selectedLibs_of_ne {armLibs : List String} (x86Libs : List String)
    (h : armLibs ≠ []) : selectedLibs armLibs x86Libs = armLibs := by
  unfold selectedLibs
  rw [if_neg]
  intro hlen
  exact h (List.length_eq_zero.mp hlen)

theorem synth_warning_arm {armLibs x86Libs : List String} {lib : String}
    (hmem : lib ∈ selectedLibs armLibs x86Libs) (h : lib ∉ armLibs) :
    Warning.notCompiledArm lib ∈ (synthCode armLibs x86Libs).2 := by
  refine List.mem_flatMap.mpr ⟨lib, hmem, ?_⟩
  unfold synthWarnings1
  rw [contains_false_of_not_mem h]
  simp

theorem synth_warning_x86 {armLibs x86Libs : List String} {lib : String}
    (hmem : lib ∈ selectedLibs armLibs x86Libs) (h : lib ∉ x86Libs) :
    Warning.notCompiledX86 lib ∈ (synthCode armLibs x86Libs).2 := by
  refine List.mem_flatMap.mpr ⟨lib, hmem, ?_⟩
  unfold synthWarnings1
  rw [contains_false_of_not_mem h]
  simp

theorem synth_warning_shape {armLibs x86Libs : List String} {w : Warning}
    (h : w ∈ (synthCode armLibs x86Libs).2) :
    ∃ l ∈ selectedLibs armLibs x86Libs,
      w = Warning.notCompiledArm l ∨ w = Warning.notCompiledX86 l := by
  rcases List.mem_flatMap.mp h with ⟨l, hl, hw⟩
  refine ⟨l, hl, ?_⟩
  unfold synthWarnings1 at hw
  rcases List.mem_append.mp hw with h1 | h1
  · left
    split at h1
    · cases h1
    · exact List.mem_singleton.mp h1
  · right
    split at h1
    · cases h1
    · exact List.mem_singleton.mp h1

/-! ### Concrete run configurations used in the closed theorems -/

/-- A run with source tree `/src`, build directory `/b`, a plain output
file path `/out.tbp`, no auxiliary source directories, and a process
working directory containing none of the archive-relative paths. -/
def plainConfig : Config :=
  ⟨"/src", "/b", "/out.tbp", false, fun _ => false, none, none, none⟩

/-- Like `plainConfig`, but the source tree has an `assets` directory
holding a nested subdirectory `sub` with one file `data.txt`, and the
process working directory (distinct from the source directory) contains
no directory named `assets/sub`. -/
def nestedAssetsConfig : Config :=
  ⟨"/src", "/b", "/out.tbp", false, fun _ => false, none,
   some (.dir [("sub", .dir [("data.txt", .file)])]), none⟩

/-! ### The claims -/

/-- C1: for the manifest `{id: "pkg", version: "1.0"}` with no `code`
section, when both architecture builds produce exactly `libpkg.so`, the
tool succeeds and the archive contains `package.yaml`,
`native/armeabi-v7a/libpkg.so` and `native/x86/libpkg.so`, and the
manifest serialized into the archive has a `code` section equal to the
single entry `{name: "pkg", type: "native"}`. -/
theorem C1_end_to_end_archive :
    (run plainConfig [("id", .s "pkg"), ("version", .s "1.0")]
      ["libpkg.so"] ["libpkg.so"]).result.isOk = true ∧
    Entry.manifest "package.yaml"
      [("id", .s "pkg"), ("version", .s "1.0"),
       ("code", .list [.map [("name", .s "pkg"), ("type", .s "native")]])] ∈
      (run plainConfig [("id", .s "pkg"), ("version", .s "1.0")]
        ["libpkg.so"] ["libpkg.so"]).result.entries ∧
    Entry.file "native/armeabi-v7a/libpkg.so" "/b/arm/libpkg.so" ∈
      (run plainConfig [("id", .s "pkg"), ("version", .s "1.0")]
        ["libpkg.so"] ["libpkg.so"]).result.entries ∧
    Entry.file "native/x86/libpkg.so" "/b/x86/libpkg.so" ∈
      (run plainConfig [("id", .s "pkg"), ("version", .s "1.0")]
        ["libpkg.so"] ["libpkg.so"]).result.entries ∧
    (run plainConfig [("id", .s "pkg"), ("version", .s "1.0")]
      ["libpkg.so"] ["libpkg.so"]).result.codeOut =
      some (.list [.map [("name", .s "pkg"), ("type", .s "native")]]) := by
  decide

/-- C2 (counterexample): with no `code` section, `liba.so` built for
both architectures and `libb.so` built only for x86, the artifact
`libb.so` is present in one architecture's output and absent from the
other, yet the run emits no warning at all (and still succeeds),
because the warning loop iterates only over the ARM list when it is
non-empty.  The claim requires a warning naming `libb.so`. -/
theorem C2_x86_only_artifact_unwarned :
    ("libb.so" ∈ ["liba.so", "libb.so"] ∧ "libb.so" ∉ ["liba.so"]) ∧
    (run plainConfig [("id", .s "pkg"), ("version", .s "1.0")]
      ["liba.so"] ["liba.so", "libb.so"]).warnings = [] ∧
    (run plainConfig [("id", .s "pkg"), ("version", .s "1.0")]
      ["liba.so"] ["liba.so", "libb.so"]).result.isOk = true := by
  decide

/-- C2 (amended): with no `code` section in the sanitized manifest,
packaging succeeds, and every artifact of the selected list (the ARM
list when non-empty, otherwise the x86 list) that is absent from the
other architecture's output gets a warning naming it. -/
theorem C2_selected_list_warnings (cfg : Config) (m0 : PyDict)
    (armLibs x86Libs : List String) (i ver : String)
    (hid : getProp (verify_properties m0 package_yaml_recognized_properties
      package_yaml_string_properties).1 "id" = some (.s i))
    (hver : getProp (verify_properties m0 package_yaml_recognized_properties
      package_yaml_string_properties).1 "version" = some (.s ver))
    (hm : pyVersionMatch ver = true)
    (hnc : getProp (verify_properties m0 package_yaml_recognized_properties
      package_yaml_string_properties).1 "code" = none) :
    (run cfg m0 armLibs x86Libs).result.isOk = true ∧
    ∀ lib ∈ selectedLibs armLibs x86Libs,
      (lib ∉ armLibs →
        Warning.notCompiledArm lib ∈ (run cfg m0 armLibs x86Libs).warnings) ∧
      (lib ∉ x86Libs →
        Warning.notCompiledX86 lib ∈ (run cfg m0 armLibs x86Libs).warnings) := by
  rw [run_eq, runAfterSanitize_nocode cfg _ _ armLibs x86Libs hid hver hm hnc]
  have hid2 : getProp (setOrAppend (verify_properties m0
      package_yaml_recognized_properties package_yaml_string_properties).1 "code"
      (.list (synthCode armLibs x86Libs).1)) "id" = some (.s i) := by
    rw [getProp_setOrAppend_ne _ _ (by decide)]
    exact hid
  refine ⟨packageStep_result_ok hid2, ?_⟩
  intro lib hmem
  rw [packageStep_warnings]
  constructor
  · intro h
    exact List.mem_append_right _ (synth_warning_arm hmem h)
  · intro h
    exact List.mem_append_right _ (synth_warning_x86 hmem h)

theorem C2_selected_list_warnings_witness :
    (run plainConfig [("id", .s "pkg"), ("version", .s "1.0")]
      ["liba.so"] []).result.isOk = true ∧
    Warning.notCompiledX86 "liba.so" ∈
      (run plainConfig [("id", .s "pkg"), ("version", .s "1.0")]
        ["liba.so"] []).warnings := by
  have h := C2_selected_list_warnings plainConfig
    [("id", .s "pkg"), ("version", .s "1.0")] ["liba.so"] [] "pkg" "1.0"
    (by decide) (by decide) (by decide) (by decide)
  exact ⟨h.1, ((h.2 "liba.so" (by decide)).2 (by decide))⟩

/-- C3 (divergence witness): with the source assets directory holding
`sub/data.txt` and a process working directory that has no directory at
the relative path `assets/sub`, the run succeeds but writes only a bare
directory entry `assets/sub`; no file entry `assets/sub/data.txt`
appears, because `pack_dir` tests `os.path.isdir(zip_path + "/" + f)`
(the archive path against the working directory) instead of
`os.path.join(dir_path, f)` (the source subdirectory). -/
theorem C3_nested_file_lost :
    (run nestedAssetsConfig [("id", .s "pkg"), ("version", .s "1.0")]
      [] []).result.isOk = true ∧
    Entry.dirEntry "assets/sub" ∈
      (run nestedAssetsConfig [("id", .s "pkg"), ("version", .s "1.0")]
        [] []).result.entries ∧
    ((run nestedAssetsConfig [("id", .s "pkg"), ("version", .s "1.0")]
        [] []).result.entries.all (fun e =>
      match e with
      | Entry.file a _ => a != "assets/sub/data.txt"
      | _ => true)) = true := by
  decide

/-- C4: whenever the sanitized manifest has no `id`, the run stops with
the fatal id error (non-zero exit) before any packaging: the outcome
carries no archive and no entry is ever produced. -/
theorem C4_missing_id_fatal_no_archive (cfg : Config) (m0 : PyDict)
    (armLibs x86Libs : List String)
    (h : getProp (verify_properties m0 package_yaml_recognized_properties
      package_yaml_string_properties).1 "id" = none) :
    run cfg m0 armLibs x86Libs =
      ⟨(verify_properties m0 package_yaml_recognized_properties
          package_yaml_string_properties).2,
       .fatal "No package id specified in package.yaml"⟩ ∧
    (run cfg m0 armLibs x86Libs).result.entries = [] := by
  have h1 : run cfg m0 armLibs x86Libs =
      ⟨(verify_properties m0 package_yaml_recognized_properties
          package_yaml_string_properties).2,
       .fatal "No package id specified in package.yaml"⟩ := by
    rw [run_eq]
    exact runAfterSanitize_id_missing h
  exact ⟨h1, by rw [h1]; rfl⟩

theorem C4_missing_id_fatal_no_archive_witness :
    run plainConfig [("version", .s "1.0")] [] [] =
      ⟨[], .fatal "No package id specified in package.yaml"⟩ ∧
    (run plainConfig [("version", .s "1.0")] [] []).result.entries = [] := by
  have h := C4_missing_id_fatal_no_archive plainConfig [("version", .s "1.0")]
    [] [] (by decide)
  exact h

/-- C5 (counterexample): the version string `"1\n"` does not match the
pattern anchored at both ends, survives sanitization unchanged, and yet
the run succeeds (exit 0): Python's `$` also matches just before a
single trailing newline, so `re.match` accepts it.  The claim requires
a non-zero exit for this manifest. -/
theorem C5_trailing_newline_accepted :
    anchoredVersionMatch "1\n" = false ∧
    getProp (verify_properties [("id", .s "pkg"), ("version", .s "1\n")]
      package_yaml_recognized_properties package_yaml_string_properties).1
      "version" = some (.s "1\n") ∧
    (run plainConfig [("id", .s "pkg"), ("version", .s "1\n")]
      [] []).result.isOk = true := by
  decide

/-- C5 (amended): the run exits non-zero for every manifest whose
version field is absent (before or after sanitization) or whose
sanitized version is a string rejected by Python's match — that is, a
string such that neither it nor it minus a single trailing newline
matches the anchored pattern. -/
theorem C5_invalid_version_fatal (cfg : Config) (m0 : PyDict)
    (armLibs x86Libs : List String)
    (h : getProp m0 "version" = none ∨
      getProp (verify_properties m0 package_yaml_recognized_properties
        package_yaml_string_properties).1 "version" = none ∨
      ∃ v, getProp (verify_properties m0 package_yaml_recognized_properties
        package_yaml_string_properties).1 "version" = some (.s v) ∧
        pyVersionMatch v = false) :
    (run cfg m0 armLibs x86Libs).result.isOk = false := by
  rw [run_eq]
  rcases h with h | h | h
  · exact runAfterSanitize_isOk_false_of_bad_version (Or.inl (verify_none _ _ h))
  · exact runAfterSanitize_isOk_false_of_bad_version (Or.inl h)
  · exact runAfterSanitize_isOk_false_of_bad_version (Or.inr h)

theorem C5_invalid_version_fatal_witness :
    (run plainConfig [("id", .s "pkg"), ("version", .s "1.2.3.4")]
      [] []).result.isOk = false := by
  exact C5_invalid_version_fatal plainConfig
    [("id", .s "pkg"), ("version", .s "1.2.3.4")] [] []
    (Or.inr (Or.inr ⟨"1.2.3.4", by decide, by decide⟩))

/-- C6: in a code entry (after its own sanitization pass) the loader is
the `type` field if present, else `loader`, and the path is the `name`
field if present, else `path`; when either resolves to nothing or to a
non-truthy value, the run aborts with a non-zero exit. -/
theorem C6_unresolved_code_entry_fatal (cfg : Config) (m0 : PyDict)
    (armLibs x86Libs : List String) (es : List Yaml) (kvs : List (String × Yaml))
    (hcode : getProp (verify_properties m0 package_yaml_recognized_properties
      package_yaml_string_properties).1 "code" = some (.list es))
    (he : Yaml.map kvs ∈ es)
    (hbad : truthyOpt (resolveAlias
        (verify_properties kvs code_string_properties code_string_properties).1
        "type" "loader") = false ∨
      truthyOpt (resolveAlias
        (verify_properties kvs code_string_properties code_string_properties).1
        "name" "path") = false) :
    (run cfg m0 armLibs x86Libs).result.isOk = false := by
  rw [run_eq]
  exact runAfterSanitize_isOk_false_of_bad_entry hcode he
    (processCodeEntry_fatal_of_unresolved hbad)

theorem C6_unresolved_code_entry_fatal_witness :
    (run plainConfig [("id", .s "pkg"), ("version", .s "1.0"),
      ("code", .list [.map [("type", .s "native")]])] [] []).result.isOk = false := by
  exact C6_unresolved_code_entry_fatal plainConfig
    [("id", .s "pkg"), ("version", .s "1.0"),
     ("code", .list [.map [("type", .s "native")]])]
    [] [] [.map [("type", .s "native")]] [("type", .s "native")]
    (by decide) (by decide) (Or.inr (by decide))

/-- C7: a numeric value in one of the string-typed manifest fields is
coerced to its decimal string form by sanitization — the field is kept,
nothing fails — and the coerced string is what the manifest written
into the archive carries for that field. -/
theorem C7_numeric_string_coercion (cfg : Config) (m0 : PyDict)
    (armLibs x86Libs : List String) (p : String) (n : Int)
    (hp : p ∈ package_yaml_string_properties)
    (hv : getProp m0 p = some (.i n)) :
    getProp (verify_properties m0 package_yaml_recognized_properties
      package_yaml_string_properties).1 p = some (.s (toString n)) ∧
    ∀ pa es mf, (run cfg m0 armLibs x86Libs).result = .ok pa es mf →
      getProp mf p = some (.s (toString n)) := by
  have hrec : package_yaml_recognized_properties.contains p = true :=
    List.elem_eq_true_of_mem (List.mem_append_left _ hp)
  have h1 : getProp (verify_properties m0 package_yaml_recognized_properties
      package_yaml_string_properties).1 p = some (.s (toString n)) :=
    verify_coerces _ _ hrec hp hv rfl rfl
  refine ⟨h1, ?_⟩
  intro pa es mf hok
  rw [run_eq] at hok
  rcases runAfterSanitize_ok_inv hok with ⟨c, rfl⟩
  have hne : p ≠ "code" := by
    intro hpc
    subst hpc
    exact absurd hp (by decide)
  rw [getProp_setOrAppend_ne _ _ hne]
  exact h1

theorem C7_numeric_string_coercion_witness :
    getProp (verify_properties [("id", .s "x"), ("version", .i 1)]
      package_yaml_recognized_properties package_yaml_string_properties).1
      "version" = some (.s "1") ∧
    getProp [("id", .s "x"), ("version", .s "1"), ("code", .list [])]
      "version" = some (.s "1") := by
  have h := C7_numeric_string_coercion plainConfig
    [("id", .s "x"), ("version", .i 1)] [] [] "version" 1 (by decide) (by decide)
  exact ⟨h.1, h.2 "/out.tbp"
    [Entry.manifest "package.yaml"
      [("id", .s "x"), ("version", .s "1"), ("code", .list [])]]
    [("id", .s "x"), ("version", .s "1"), ("code", .list [])] (by decide)⟩

/-- C8: a top-level manifest field outside the recognized set is
deleted by sanitization, a warning naming it is printed, and the field
is absent from the manifest written into the archive on every
successful run. -/
theorem C8_unknown_field_dropped (cfg : Config) (m0 : PyDict)
    (armLibs x86Libs : List String) (k : String) (v : Yaml)
    (hk : package_yaml_recognized_properties.contains k = false)
    (hv : getProp m0 k = some v) :
    getProp (verify_properties m0 package_yaml_recognized_properties
      package_yaml_string_properties).1 k = none ∧
    Warning.unrecognizedProperty k ∈ (run cfg m0 armLibs x86Libs).warnings ∧
    ∀ pa es mf, (run cfg m0 armLibs x86Libs).result = .ok pa es mf →
      getProp mf k = none := by
  have h1 := verify_getProp_unrecognized package_yaml_recognized_properties
    package_yaml_string_properties hk hv
  refine ⟨h1.1, ?_, ?_⟩
  · rcases runAfterSanitize_warnings cfg
      (verify_properties m0 package_yaml_recognized_properties
        package_yaml_string_properties).1
      (verify_properties m0 package_yaml_recognized_properties
        package_yaml_string_properties).2 armLibs x86Libs with ⟨t, ht⟩
    rw [run_eq, ht]
    exact List.mem_append_left _ h1.2
  · intro pa es mf hok
    rw [run_eq] at hok
    rcases runAfterSanitize_ok_inv hok with ⟨c, rfl⟩
    have hne : k ≠ "code" := by
      intro hkc
      subst hkc
      exact absurd hk (by decide)
    rw [getProp_setOrAppend_ne _ _ hne]
    exact h1.1

theorem C8_unknown_field_dropped_witness :
    getProp (verify_properties [("zzz", .s "y"), ("id", .s "x"), ("version", .s "2")]
      package_yaml_recognized_properties package_yaml_string_properties).1
      "zzz" = none ∧
    Warning.unrecognizedProperty "zzz" ∈
      (run plainConfig [("zzz", .s "y"), ("id", .s "x"), ("version", .s "2")]
        [] []).warnings ∧
    getProp [("id", .s "x"), ("version", .s "2"), ("code", .list [])] "zzz" = none := by
  have h := C8_unknown_field_dropped plainConfig
    [("zzz", .s "y"), ("id", .s "x"), ("version", .s "2")] [] []
    "zzz" (.s "y") (by decide) (by decide)
  exact ⟨h.1, h.2.1, h.2.2 "/out.tbp"
    [Entry.manifest "package.yaml"
      [("id", .s "x"), ("version", .s "2"), ("code", .list [])]]
    [("id", .s "x"), ("version", .s "2"), ("code", .list [])] (by decide)⟩

/-- C9: when the manifest has no `code` section and the ARM build
produced at least one library, the synthesized code section is exactly
the ARM artifact list mapped to entries (the x86 list is selected only
when the ARM list is empty), and an artifact absent from the ARM list —
in particular one built only for x86 — gets neither a code entry of its
own nor a not-compiled warning. -/
theorem C9_arm_only_synthesis (cfg : Config) (m0 : PyDict)
    (armLibs x86Libs : List String) (i ver : String)
    (hid : getProp (verify_properties m0 package_yaml_recognized_properties
      package_yaml_string_properties).1 "id" = some (.s i))
    (hver : getProp (verify_properties m0 package_yaml_recognized_properties
      package_yaml_string_properties).1 "version" = some (.s ver))
    (hm : pyVersionMatch ver = true)
    (hnc : getProp (verify_properties m0 package_yaml_recognized_properties
      package_yaml_string_properties).1 "code" = none)
    (ha : armLibs ≠ []) :
    selectedLibs armLibs x86Libs = armLibs ∧
    (run cfg m0 armLibs x86Libs).result.codeOut =
      some (.list (armLibs.map synthEntry)) ∧
    ∀ lib, lib ∉ armLibs →
      Warning.notCompiledArm lib ∉ (run cfg m0 armLibs x86Libs).warnings ∧
      Warning.notCompiledX86 lib ∉ (run cfg m0 armLibs x86Libs).warnings := by
  have hsel : selectedLibs armLibs x86Libs = armLibs := selectedLibs_of_ne x86Libs ha
  rw [run_eq, runAfterSanitize_nocode cfg _ _ armLibs x86Libs hid hver hm hnc]
  have hid2 : getProp (setOrAppend (verify_properties m0
      package_yaml_recognized_properties package_yaml_string_properties).1 "code"
      (.list (synthCode armLibs x86Libs).1)) "id" = some (.s i) := by
    rw [getProp_setOrAppend_ne _ _ (by decide)]
    exact hid
  refine ⟨hsel, ?_, ?_⟩
  · rw [packageStep_codeOut hid2, getProp_setOrAppend_self]
    have hfst : (synthCode armLibs x86Libs).1 = armLibs.map synthEntry := by
      show (selectedLibs armLibs x86Libs).map synthEntry = armLibs.map synthEntry
      rw [hsel]
    rw [hfst]
  · intro lib hlib
    rw [packageStep_warnings]
    constructor
    · intro hw
      rcases List.mem_append.mp hw with hw1 | hw1
      · rcases verify_warnings_shape _ _ hw1 with ⟨q, hq⟩ | ⟨q, hq⟩ <;> cases hq
      · rcases synth_warning_shape hw1 with ⟨l, hl, hc | hc⟩
        · injection hc with h2
          subst h2
          rw [hsel] at hl
          exact hlib hl
        · cases hc
    · intro hw
      rcases List.mem_append.mp hw with hw1 | hw1
      · rcases verify_warnings_shape _ _ hw1 with ⟨q, hq⟩ | ⟨q, hq⟩ <;> cases hq
      · rcases synth_warning_shape hw1 with ⟨l, hl, hc | hc⟩
        · cases hc
        · injection hc with h2
          subst h2
          rw [hsel] at hl
          exact hlib hl

theorem C9_arm_only_synthesis_witness :
    selectedLibs ["liba.so"] ["liba.so", "libb.so"] = ["liba.so"] ∧
    (run plainConfig [("id", .s "pkg"), ("version", .s "1.0")]
      ["liba.so"] ["liba.so", "libb.so"]).result.codeOut =
      some (.list (["liba.so"].map synthEntry)) ∧
    Warning.notCompiledArm "libb.so" ∉
      (run plainConfig [("id", .s "pkg"), ("version", .s "1.0")]
        ["liba.so"] ["liba.so", "libb.so"]).warnings := by
  have h := C9_arm_only_synthesis plainConfig
    [("id", .s "pkg"), ("version", .s "1.0")] ["liba.so"] ["liba.so", "libb.so"]
    "pkg" "1.0" (by decide) (by decide) (by decide) (by decide) (by decide)
  exact ⟨h.1, h.2.1, (h.2.2 "libb.so" (by decide)).1⟩

/-- C10 (counterexample): for the manifest whose only field is
`version: []`, sanitization does delete the non-scalar version with a
warning, but the run then stops with the missing-id error, not with the
invalid-version error the claim names. -/
theorem C10_missing_id_precedence :
    (run plainConfig [("version", .list [])] [] []).warnings =
      [Warning.notAString "version"] ∧
    (run plainConfig [("version", .list [])] [] []).result =
      .fatal "No package id specified in package.yaml" ∧
    (run plainConfig [("version", .list [])] [] []).result ≠
      .fatal "Invalid package version in package.yaml" := by
  decide

/-- C10 (amended): a version value that is neither a string nor a
number is deleted by sanitization with a warning, and the run then
exits non-zero; when the sanitized manifest still has an `id`, the
error is exactly the invalid-version error (with no `id` the
missing-id error fires first). -/
theorem C10_nonscalar_version_deleted_then_fatal (cfg : Config) (m0 : PyDict)
    (armLibs x86Libs : List String) (v : Yaml)
    (hv : getProp m0 "version" = some v)
    (hs : isStr v = false) (hn : isNumber v = false) :
    getProp (verify_properties m0 package_yaml_recognized_properties
      package_yaml_string_properties).1 "version" = none ∧
    Warning.notAString "version" ∈ (run cfg m0 armLibs x86Libs).warnings ∧
    (run cfg m0 armLibs x86Libs).result.isOk = false ∧
    ∀ y, getProp (verify_properties m0 package_yaml_recognized_properties
        package_yaml_string_properties).1 "id" = some y →
      (run cfg m0 armLibs x86Libs).result =
        .fatal "Invalid package version in package.yaml" := by
  have h1 := verify_deletes_nonscalar package_yaml_recognized_properties
    package_yaml_string_properties (by decide) (by decide) hv hs hn
  have h2 := runAfterSanitize_version_missing cfg
    (verify_properties m0 package_yaml_recognized_properties
      package_yaml_string_properties).1
    (verify_properties m0 package_yaml_recognized_properties
      package_yaml_string_properties).2
    armLibs x86Libs h1.1
  refine ⟨h1.1, ?_, ?_, ?_⟩
  · rcases runAfterSanitize_warnings cfg
      (verify_properties m0 package_yaml_recognized_properties
        package_yaml_string_properties).1
      (verify_properties m0 package_yaml_recognized_properties
        package_yaml_string_properties).2 armLibs x86Libs with ⟨t, ht⟩
    rw [run_eq, ht]
    exact List.mem_append_left _ h1.2
  · rw [run_eq]
    exact h2.1
  · intro y hy
    rw [run_eq]
    exact h2.2 y hy

theorem C10_nonscalar_version_deleted_then_fatal_witness :
    getProp (verify_properties [("id", .s "x"), ("version", .list [])]
      package_yaml_recognized_properties package_yaml_string_properties).1
      "version" = none ∧
    Warning.notAString "version" ∈
      (run plainConfig [("id", .s "x"), ("version", .list [])] [] []).warnings ∧
    (run plainConfig [("id", .s "x"), ("version", .list [])] [] []).result =
      .fatal "Invalid package version in package.yaml" := by
  have h := C10_nonscalar_version_deleted_then_fatal plainConfig
    [("id", .s "x"), ("version", .list [])] [] []
    (.list []) (by decide) (by decide) (by decide)
  exact ⟨h.1, h.2.1, h.2.2.2 (.s "x") (by decide)⟩

end TmlBuild
